import Mathlib

/-!
Verification development for the protocol-server orchestration layer in
`src/web/Server.ts` of nodejs-poolController.

Each definition below is a shallow embedding of a function or code path of
that file.  Asynchronous code is embedded as explicit state passing: the
order in which callbacks fire is passed in as a list of events, and a
JavaScript promise that settles at most once is embedded as "the first
settling event determines the outcome, later events are discarded".
External effects (filesystem, network, socket libraries) are embedded as
explicit parameters recording their observable results.
-/

namespace Web

/-- One entry of `os.networkInterfaces()` as consumed by
`WebServer.getInterface` (Server.ts lines 150-166): the fields `internal`,
`mac`, `family` and `address` are the only ones read. -/
structure NicAddr where
  internal : Bool
  mac : String
  family : String
  address : String
deriving DecidableEq

/-- Embedding of JavaScript `haystack.indexOf(needle) >= 0` on strings,
i.e. substring containment, used for `addr.mac.indexOf('00:00:00:') < 0`. -/
def hasInfix (pat : List Char) : List Char → Bool
  | [] => pat.isEmpty
  | c :: t => pat.isPrefixOf (c :: t) || hasInfix pat t

/-- The predicate of Server.ts line 161:
`!addr.internal && addr.mac.indexOf('00:00:00:') < 0 && addr.family === this.family`. -/
def matchAddr (family : String) (a : NicAddr) : Bool :=
  !a.internal && !(hasInfix "00:00:00:".data a.mac.data) && (a.family == family)

/-- `WebServer.getInterface` (Server.ts lines 150-166): nested loops over the
interface table, returning the first address that satisfies `matchAddr`.
The table is a list of (interface name, address list) pairs in enumeration
order; the outer loop walks the names, the inner loop walks each address. -/
def findNicAddr (family : String) : List (String × List NicAddr) → Option NicAddr
  | [] => none
  | (_, nic) :: rest =>
    match nic.find? (matchAddr family) with
    | some a => some a
    | none => findNicAddr family rest

/-- All addresses of the table flattened in enumeration order. -/
def allAddrs : List (String × List NicAddr) → List NicAddr
  | [] => []
  | (_, nic) :: rest => nic ++ allAddrs rest

/-- `WebServer.getInterface` with the instance field `family = 'IPv4'`
(Server.ts line 53). -/
def getInterface (nics : List (String × List NicAddr)) : Option NicAddr :=
  findNicAddr "IPv4" nics

/-- `WebServer.ip` (Server.ts lines 167-169). -/
def ip (nics : List (String × List NicAddr)) : String :=
  match getInterface nics with
  | none => "0.0.0.0"
  | some a => a.address

/-- `WebServer.mac` (Server.ts lines 170-172). -/
def mac (nics : List (String × List NicAddr)) : String :=
  match getInterface nics with
  | none => "00:00:00:00"
  | some a => a.mac

/-- A registered server handle as seen by `WebServer.stopAsync`: its name
and whether its `stopAsync` call throws. -/
structure StopItem where
  name : String
  throws : Bool
deriving DecidableEq

/-- One iteration of the `for (let s in this._servers)` loop of
`WebServer.stopAsync` (Server.ts lines 136-149).  The accumulator carries
the list of names on which a stop was attempted (in attempt order) and the
array slots after the iteration.  The loop body is
`try { await serv.stopAsync(); this._servers[s] = undefined } catch { log }`:
a throwing stop is caught, leaves its slot in place, and the loop continues
with the next index. -/
def stopStep (acc : List String × List (Option StopItem)) (s : StopItem) :
    List String × List (Option StopItem) :=
  if s.throws then (acc.1 ++ [s.name], acc.2 ++ [some s])
  else (acc.1 ++ [s.name], acc.2 ++ [none])

/-- `WebServer.stopAsync` (Server.ts lines 136-149).  The `for...in` loop
enumerates the array indices in ascending order, so the handles are visited
in forward registration order. -/
def stopAsyncRun (servers : List StopItem) : List String × List (Option StopItem) :=
  servers.foldl stopStep ([], [])

end Web

namespace Registry

/-- A `cfg.servers` entry (Server.ts lines 58-63): only `enabled` and `uuid`
matter to the registry logic modelled here. -/
structure SrvConfig where
  enabled : Bool
  uuid : Option String
deriving DecidableEq

/-- A `cfg.interfaces` entry (Server.ts lines 89-99): `name`, optional
`type` (defaulting to http), `enabled`, optional `fileName` (absent covers
the JavaScript-falsy cases) and `uuid`. -/
structure IntConfig where
  name : String
  type : Option String
  enabled : Bool
  fileName : Option String
  uuid : Option String
deriving DecidableEq

/-- The observable fields of a constructed `ProtoServer` handle right after
its `init(cfg)` call: constructor arguments `name`/`type`, the stored
`uuid` and the `isRunning` flag. -/
structure Handle where
  name : String
  type : String
  uuid : Option String
  isRunning : Bool
deriving DecidableEq

/-- One `config.setSection(key, c)` persistence call performed when a uuid
is generated (Server.ts lines 60-63 and 93-96). -/
structure PersistEvent where
  key : String
  uuid : String
deriving DecidableEq

/-- The server kinds recognised by the `switch (s)` of `WebServer.init`
(Server.ts lines 64-80). -/
inductive SrvKind where
  | http
  | http2
  | https
  | mdns
  | ssdp
deriving DecidableEq

/-- Results of the external effects performed by the various `init`
implementations, passed in as an environment: whether the https
certificate files exist and the listener starts (Server.ts lines 441-502),
whether the ssdp start promise has resolved (lines 533-537), whether
`initBindings` returned true for a given interface name (lines 664, 745,
807), and whether the REM `initSockets` ran without throwing (lines
1022-1051). -/
structure Env where
  httpsOk : Bool
  ssdpStarted : Bool
  bindingsOk : String → Bool
  remSockOk : String → Bool

/-- The `switch (s)` dispatch of `WebServer.init` (Server.ts lines 64-80);
an unrecognised key leaves `srv` undefined and nothing is pushed. -/
def srvKindOf (s : String) : Option SrvKind :=
  if s = "http" then some SrvKind.http
  else if s = "http2" then some SrvKind.http2
  else if s = "https" then some SrvKind.https
  else if s = "mdns" then some SrvKind.mdns
  else if s = "ssdp" then some SrvKind.ssdp
  else none

/-- Whether the `enabled` branch of the given variant's `init` ends with
`isRunning = true`: HttpServer sets it at line 412, MdnsServer at line 632;
Http2Server never sets it (lines 217-223); HttpsServer only when the
certificate files are present and no error is thrown (lines 425-507);
SsdpServer sets it when the start promise resolves (lines 533-537). -/
def srvRunning (env : Env) : SrvKind → Bool
  | SrvKind.http => true
  | SrvKind.http2 => false
  | SrvKind.https => env.httpsOk
  | SrvKind.mdns => true
  | SrvKind.ssdp => env.ssdpStarted

/-- The common shape of every server variant's `init(cfg)`:
`this.uuid = cfg.uuid` always, and the body guarded by `if (cfg.enabled)`
runs only for an enabled config. -/
def srvInit (env : Env) (k : SrvKind) (name ty : String) (c : SrvConfig) : Handle :=
  { name := name, type := ty, uuid := c.uuid, isRunning := c.enabled && srvRunning env k }

/-- The uuid assignment of Server.ts lines 60-63:
`if (typeof c.uuid === 'undefined') { c.uuid = utils.uuid(); config.setSection(...) }`.
Returns the possibly-updated config and whether a persistence call was made;
`g` is the freshly generated uuid. -/
def ensureSrvUuid (g : String) (c : SrvConfig) : SrvConfig × Bool :=
  if c.uuid = none then ({ c with uuid := some g }, true) else (c, false)

/-- The uuid assignment of Server.ts lines 93-96, identical in shape to
`ensureSrvUuid` but on interface configs. -/
def ensureIntUuid (g : String) (c : IntConfig) : IntConfig × Bool :=
  if c.uuid = none then ({ c with uuid := some g }, true) else (c, false)

/-- One iteration of the `for (let s in cfg.servers)` loop of
`WebServer.init` (Server.ts lines 58-86): ensure the uuid (persisting if it
was missing), dispatch on the key, and for every recognised key construct
the variant, push it and call its `init` -- regardless of `c.enabled`.
Returns the updated config, the persistence calls and the pushed handles. -/
def initServerEntry (env : Env) (g : String) (s : String) (c : SrvConfig) :
    SrvConfig × List PersistEvent × List Handle :=
  let ec := ensureSrvUuid g c
  let pev : List PersistEvent := if ec.2 then [{ key := "web.servers." ++ s, uuid := g }] else []
  match srvKindOf s with
  | none => (ec.1, pev, [])
  | some k => (ec.1, pev, [srvInit env k s s ec.1])

/-- The `init` of HttpInterfaceServer / InfluxInterfaceServer /
MqttInterfaceServer (Server.ts lines 661-666, 742-747, 804-809):
`this.uuid = cfg.uuid; if (cfg.enabled) { if (cfg.fileName && this.initBindings(cfg)) this.isRunning = true; }`.
Handle name is `c.name`, the type tag is the dispatch string. -/
def mkBindingHandle (env : Env) (c : IntConfig) (ty : String) : Handle :=
  { name := c.name, type := ty, uuid := c.uuid,
    isRunning := c.enabled && (c.fileName.isSome && env.bindingsOk c.name) }

/-- The `init` of REMInterfaceServer (Server.ts lines 877-891):
`this.uuid = cfg.uuid; if (cfg.enabled) { this.initSockets(); ... }` where
`initSockets` ends with `this.isRunning = true` unless it throws. -/
def mkRemHandle (env : Env) (c : IntConfig) : Handle :=
  { name := c.name, type := "rem", uuid := c.uuid,
    isRunning := c.enabled && env.remSockOk c.name }

/-- One iteration of the `for (let s in interfaces)` loop of
`WebServer.initInterfaces` (Server.ts lines 89-123): ensure the uuid
(persisting if it was missing), then `if (!c.enabled) continue;`, then
dispatch on `c.type || 'http'` and push a handle for the four recognised
interface types. -/
def initInterfaceEntry (env : Env) (g : String) (s : String) (c : IntConfig) :
    IntConfig × List PersistEvent × List Handle :=
  let ec := ensureIntUuid g c
  let pev : List PersistEvent :=
    if ec.2 then [{ key := "web.interfaces." ++ s, uuid := g }] else []
  if ec.1.enabled = false then (ec.1, pev, [])
  else
    let ty := ec.1.type.getD "http"
    if ty = "http" ∨ ty = "influx" ∨ ty = "mqtt" then
      (ec.1, pev, [mkBindingHandle env ec.1 ty])
    else if ty = "rem" then (ec.1, pev, [mkRemHandle env ec.1])
    else (ec.1, pev, [])

/-- The server loop of `WebServer.init` over the whole `cfg.servers` table,
threading an index into the uuid generator `gen` (each call of
`utils.uuid()` yields a fresh value). -/
def initServersGo (env : Env) (gen : Nat → String) :
    Nat → List (String × SrvConfig) →
    List (String × SrvConfig) × List PersistEvent × List Handle
  | _, [] => ([], [], [])
  | i, (s, c) :: rest =>
    let e := initServerEntry env (gen i) s c
    let r := initServersGo env gen (i + 1) rest
    ((s, e.1) :: r.1, e.2.1 ++ r.2.1, e.2.2 ++ r.2.2)

/-- The server half of `WebServer.init` (Server.ts lines 55-87). -/
def initServers (env : Env) (gen : Nat → String) (entries : List (String × SrvConfig)) :
    List (String × SrvConfig) × List PersistEvent × List Handle :=
  initServersGo env gen 0 entries

/-- The loop of `WebServer.initInterfaces` over the whole interface table. -/
def initInterfacesGo (env : Env) (gen : Nat → String) :
    Nat → List (String × IntConfig) →
    List (String × IntConfig) × List PersistEvent × List Handle
  | _, [] => ([], [], [])
  | i, (s, c) :: rest =>
    let e := initInterfaceEntry env (gen i) s c
    let r := initInterfacesGo env gen (i + 1) rest
    ((s, e.1) :: r.1, e.2.1 ++ r.2.1, e.2.2 ++ r.2.2)

/-- `WebServer.initInterfaces` (Server.ts lines 89-123). -/
def initInterfaces (env : Env) (gen : Nat → String) (entries : List (String × IntConfig)) :
    List (String × IntConfig) × List PersistEvent × List Handle :=
  initInterfacesGo env gen 0 entries

end Registry

namespace Bindings

/-- The observable state of the binding file at the moment `loadBindings`
reads it: absent (`fs.existsSync` false), present but not valid JSON
(`JSON.parse` throws), or well formed with the given merged content. -/
inductive FileState where
  | missing
  | malformed
  | wellFormed (content : String)
deriving DecidableEq

/-- The mutable fields of HttpInterfaceServer / InfluxInterfaceServer /
MqttInterfaceServer touched by `loadBindings` and the watcher (Server.ts
lines 656-722, 737-789, 798-852): the `_isLoading` debounce flag, the
`_fileTime` recorded at the last successful load, the installed binding
object (abstracted to its merged content) and `isRunning`. -/
structure IfaceState where
  isLoading : Bool
  fileTime : Int
  bindings : Option String
  isRunning : Bool
deriving DecidableEq

/-- `HttpInterfaceServer.loadBindings` (Server.ts lines 667-687); the
Influx and Mqtt variants (lines 748-768, 810-830) are identical in shape.
`_isLoading` is set on entry.  If the file is missing the function simply
returns false (leaving `_isLoading` set -- a quirk of the source).  On a
parse error the previous binding is kept but `isRunning` is set to false.
On success the merged binding is installed, `isRunning` is set and
`_fileTime` is updated to the file's modification time `mtime`. -/
def loadBindings (file : FileState) (mtime : Int) (st : IfaceState) : IfaceState × Bool :=
  let st1 := { st with isLoading := true }
  match file with
  | FileState.missing => (st1, false)
  | FileState.malformed => ({ st1 with isRunning := false, isLoading := false }, false)
  | FileState.wellFormed content =>
    ({ st1 with bindings := some content, isRunning := true, isLoading := false,
                fileTime := mtime }, true)

/-- The `fs.watch` callback installed by `initBindings` (Server.ts lines
693-701): on a change notification with a file name, drop it if a load is
in progress, drop it if the file's current modification time equals the
recorded `_fileTime`, otherwise call `loadBindings`.  The second component
counts the `loadBindings` calls made by this notification. -/
def onChange (hasFileName : Bool) (event : String) (curMtime : Int) (file : FileState)
    (st : IfaceState) : IfaceState × Nat :=
  if hasFileName = true ∧ event = "change" then
    if st.isLoading = true then (st, 0)
    else if curMtime = st.fileTime then (st, 0)
    else ((loadBindings file curMtime st).1, 1)
  else (st, 0)

/-- The `isConnected` getter seen by HttpInterfaceServer and
InfluxInterfaceServer: neither overrides it, so they inherit
`ProtoServer.isConnected` which returns `isRunning` (Server.ts line 206). -/
def ifaceIsConnected (st : IfaceState) : Bool :=
  st.isRunning

end Bindings

namespace Mdns

/-- A pending mDNS query (Server.ts line 577): only `name` is consulted by
the response handler; `qtype` carries the record type. -/
structure MQuery where
  name : String
  qtype : String
deriving DecidableEq

/-- An answer record of an inbound response packet (Server.ts lines
590-599): `name` is matched, `payload` abstracts `answer.data`. -/
structure MAnswer where
  name : String
  payload : String
deriving DecidableEq

/-- The body of the inner `responses.answers.forEach` of the response
handler (Server.ts lines 590-600) for a fixed pending `query`.  The state
is (current `self.queries`, emitted `mdnsResponse` notifications so far).
On a name match the answer is emitted and `self.queries` is replaced by
`self.queries.filter((value, index, arr) => { if (value.name !== query.name) return arr; })`:
the callback returns the (always truthy) array when the names differ and
undefined otherwise, so the filter keeps exactly the entries whose name
differs from the matched query's name. -/
def answerStep (query : MQuery) (st : List MQuery × List MAnswer) (answer : MAnswer) :
    List MQuery × List MAnswer :=
  if answer.name = query.name then
    (st.1.filter (fun v => v.name != query.name), st.2 ++ [answer])
  else st

/-- The inner loop over all answers for one pending query
(Server.ts lines 590-600). -/
def queryStep (answers : List MAnswer) (st : List MQuery × List MAnswer) (query : MQuery) :
    List MQuery × List MAnswer :=
  answers.foldl (answerStep query) st

/-- The whole `response` handler of `MdnsServer.init` (Server.ts lines
587-603): `self.queries.forEach` iterates over the pending set as it was
when the packet arrived (reassigning `self.queries` inside does not affect
the iteration), and for each pending query the inner loop scans every
answer.  Returns the new pending set and the emitted notifications. -/
def onResponse (queries : List MQuery) (answers : List MAnswer) :
    List MQuery × List MAnswer :=
  queries.foldl (queryStep answers) (queries, [])

end Mdns

namespace Handshake

/-- The completion sources racing for the phase-2 promise of
`REMInterfaceServer.initConnection` (Server.ts lines 909-932), listed in
the order in which they fire: `ack` is the one-shot '/checkemit' listener
(line 916), `timer` is the 5-second `_tmr` deadline (line 914), `reqDone c`
is the verify-emit request returning with status code `c` (lines 923-929),
and `reqErr` is that request throwing (line 931). -/
inductive P2Event where
  | ack
  | timer
  | reqDone (code : Int)
  | reqErr
deriving DecidableEq

/-- The overall result of the handshake promise. -/
inductive HsOutcome where
  | established
  | failed
deriving DecidableEq

/-- How each completion source settles the promise: the ack listener
resolves (line 921); the timer rejects (line 914); the returned request
rejects when `code > 200 || code === -1` and resolves otherwise (lines
925-929); a thrown request rejects (line 931). -/
def p2Settle : P2Event → HsOutcome
  | P2Event.ack => HsOutcome.established
  | P2Event.timer => HsOutcome.failed
  | P2Event.reqDone code =>
      if code > 200 ∨ code = -1 then HsOutcome.failed else HsOutcome.established
  | P2Event.reqErr => HsOutcome.failed

/-- A JavaScript promise settles at most once: the first event to call
resolve or reject determines the outcome and every later completion is
discarded.  An empty event list leaves the promise pending (`none`). -/
def firstSettle : List P2Event → Option HsOutcome
  | [] => none
  | e :: _ => some (p2Settle e)

/-- The observable result of one `initConnection` run: the settled outcome
(established on resolve, failed on reject, none while pending), whether the
phase-2 block was reached (the 3-second settle `setTimeout` of line 912,
which registers the '/checkemit' listener and sends the verify-emit
request), and the stored `remoteConnectionId`. -/
structure HandshakeRun where
  outcome : Option HsOutcome
  phase2Started : Bool
  remoteConnectionId : Option String
deriving DecidableEq

/-- `REMInterfaceServer.initConnection` (Server.ts lines 892-938).
Phase 1 sends the registration request; `phase1Code` is
`result.status.code` (a timeout leaves it at its -1 default) and
`phase1Id` is `result.obj.id`.  When `code > 200 || code < 0` the executor
rejects and returns (line 902), so the phase-2 `setTimeout` is never
scheduled: no listener is registered and the verify-emit request is never
sent.  Otherwise `remoteConnectionId` is stored (line 903) and phase 2
races the completion sources in `events`. -/
def initConnection (phase1Code : Int) (phase1Id : String) (events : List P2Event) :
    HandshakeRun :=
  if phase1Code > 200 ∨ phase1Code < 0 then
    { outcome := some HsOutcome.failed, phase2Started := false, remoteConnectionId := none }
  else
    { outcome := firstSettle events, phase2Started := true,
      remoteConnectionId := some phase1Id }

end Handshake

namespace Rem

/-- The socket.io client handle of REMInterfaceServer: only its `connected`
flag is read by `isConnected`. -/
structure SockClient where
  connected : Bool
deriving DecidableEq

/-- The fields of REMInterfaceServer consulted around connectivity:
`isRunning` (set by `initSockets`, line 1048), the socket client created by
`initSockets` (line 1028), and the `remoteConnectionId` stored only by a
successful phase 1 of the handshake (line 903). -/
structure REMState where
  isRunning : Bool
  sockClient : Option SockClient
  remoteConnectionId : Option String
deriving DecidableEq

/-- `REMInterfaceServer.isConnected` (Server.ts line 949):
`return this.sockClient !== 'undefined' && this.sockClient.connected`.
The guard compares the client against the string literal 'undefined', which
is true even when the client is the value undefined, so the getter always
dereferences `sockClient`: `none` embeds the TypeError thrown when no
socket client exists, otherwise the result is the client's `connected`
flag.  The handshake's `remoteConnectionId` is not consulted. -/
def isConnected (st : REMState) : Option Bool :=
  match st.sockClient with
  | none => none
  | some c => some c.connected

/-- The REMInterfaceServer state right after an enabled `init` ran
`initSockets` (Server.ts lines 877-891, 1022-1051) and before any
successful handshake: `isRunning` is true, the socket client exists with
the given channel-connected flag, and no connection id has been stored.
This state is reached whenever the socket channel connects while
`initConnection` (scheduled 5 seconds later) has not yet succeeded. -/
def remAfterInitSockets (connected : Bool) : REMState :=
  { isRunning := true, sockClient := some { connected := connected },
    remoteConnectionId := none }

end Rem

theorem web_find_append {α : Type} (p : α → Bool) (l₁ l₂ : List α) :
    (l₁ ++ l₂).find? p =
      match l₁.find? p with
      | some a => some a
      | none => l₂.find? p := by
  induction l₁ with
  | nil => simp
  | cons a t ih =>
    cases hpa : p a with
    | true => simp [List.find?_cons, hpa]
    | false => simp [List.find?_cons, hpa, ih]

theorem web_findNicAddr_eq_find (family : String) (nics : List (String × List Web.NicAddr)) :
    Web.findNicAddr family nics = (Web.allAddrs nics).find? (Web.matchAddr family) := by
  induction nics with
  | nil => rfl
  | cons p rest ih =>
    obtain ⟨nm, nic⟩ := p
    rw [Web.findNicAddr, Web.allAddrs, web_find_append]
    cases h : nic.find? (Web.matchAddr family) with
    | none => simpa using ih
    | some a => simp

/-- Claim C10: when no enumerated interface address is non-internal, of
family IPv4, and free of the substring '00:00:00:' in its hardware address,
`WebServer.ip()` returns '0.0.0.0' and `WebServer.mac()` returns
'00:00:00:00'; otherwise both report the first such address in enumeration
order. -/
theorem web_ip_mac_first_match :
    (∀ nics : List (String × List Web.NicAddr),
        (∀ a ∈ Web.allAddrs nics, Web.matchAddr "IPv4" a = false) →
        Web.ip nics = "0.0.0.0" ∧ Web.mac nics = "00:00:00:00")
    ∧ (∀ (nics : List (String × List Web.NicAddr)) (a : Web.NicAddr),
        (Web.allAddrs nics).find? (Web.matchAddr "IPv4") = some a →
        Web.ip nics = a.address ∧ Web.mac nics = a.mac) := by
  constructor
  · intro nics h
    have hg : Web.getInterface nics = none := by
      rw [Web.getInterface, web_findNicAddr_eq_find]
      exact List.find?_eq_none.mpr (fun x hx => by simp [h x hx])
    constructor
    · rw [Web.ip, hg]
    · rw [Web.mac, hg]
  · intro nics a h
    have hg : Web.getInterface nics = some a := by
      rw [Web.getInterface, web_findNicAddr_eq_find, h]
    constructor
    · rw [Web.ip, hg]
    · rw [Web.mac, hg]

theorem web_ip_mac_first_match_witness :
    (Web.ip [("lo", [{ internal := true, mac := "00:00:00:00:00:00", family := "IPv4",
                       address := "127.0.0.1" }]),
             ("eth0", [{ internal := false, mac := "ab:cd:ef:01:23:45", family := "IPv4",
                         address := "192.168.1.10" }])] = "192.168.1.10"
      ∧ Web.mac [("lo", [{ internal := true, mac := "00:00:00:00:00:00", family := "IPv4",
                           address := "127.0.0.1" }]),
                 ("eth0", [{ internal := false, mac := "ab:cd:ef:01:23:45", family := "IPv4",
                             address := "192.168.1.10" }])] = "ab:cd:ef:01:23:45")
    ∧ (Web.ip [] = "0.0.0.0" ∧ Web.mac [] = "00:00:00:00") := by
  constructor
  · exact web_ip_mac_first_match.2
      [("lo", [{ internal := true, mac := "00:00:00:00:00:00", family := "IPv4",
                 address := "127.0.0.1" }]),
       ("eth0", [{ internal := false, mac := "ab:cd:ef:01:23:45", family := "IPv4",
                   address := "192.168.1.10" }])]
      { internal := false, mac := "ab:cd:ef:01:23:45", family := "IPv4",
        address := "192.168.1.10" }
      (by decide)
  · exact web_ip_mac_first_match.1 [] (by intro a ha; simp [Web.allAddrs] at ha)

/-- Claim C4 (evaluation at the failing input): `WebServer.stopAsync` on a
registry holding handles registered in order a, b attempts the stops in
forward registration order a, b -- not in the reverse order b, a that both
the claim and the source's own comment describe -- and a throwing stop on
the first handle still does not prevent the attempt on the second. -/
theorem stopAsync_forward_order_eval :
    (Web.stopAsyncRun [{ name := "a", throws := false }, { name := "b", throws := false }]).1
      = ["a", "b"]
    ∧ (["a", "b"] : List String) ≠ ["b", "a"]
    ∧ (Web.stopAsyncRun [{ name := "a", throws := true }, { name := "b", throws := false }]).1
      = ["a", "b"] := by
  decide

/-- Claim C5: whenever the phase-1 registration request of
`REMInterfaceServer.initConnection` returns a non-success status
(`code > 200` or negative, the -1 default covering a timeout), the promise
rejects, the phase-2 block is never scheduled -- so no '/checkemit'
listener is registered and the verify-emit request is never sent -- and no
remote connection id is stored. -/
theorem handshake_phase1_failure (code : Int) (id : String)
    (events : List Handshake.P2Event) (h : code > 200 ∨ code < 0) :
    Handshake.initConnection code id events
      = { outcome := some Handshake.HsOutcome.failed, phase2Started := false,
          remoteConnectionId := none } := by
  rw [Handshake.initConnection, if_pos h]

theorem handshake_phase1_failure_witness :
    Handshake.initConnection (-1) "abc" [Handshake.P2Event.reqDone 200]
      = { outcome := some Handshake.HsOutcome.failed, phase2Started := false,
          remoteConnectionId := none } :=
  handshake_phase1_failure (-1) "abc" [Handshake.P2Event.reqDone 200] (by decide)

/-- Claim C6: when phase 1 succeeds and the inbound '/checkemit'
acknowledgment fires before the secondary 5-second timer and before any
completion of the verify-emit request, the handshake resolves established
and stores the peer-issued connection id, regardless of the events that
settle afterwards (`rest` is arbitrary: the request may later return
success, return an error status, throw, or never complete; the promise is
already settled, so the losing completions are discarded). -/
theorem handshake_ack_established (code : Int) (id : String)
    (rest : List Handshake.P2Event) (h : ¬(code > 200 ∨ code < 0)) :
    (Handshake.initConnection code id (Handshake.P2Event.ack :: rest)).outcome
        = some Handshake.HsOutcome.established
    ∧ (Handshake.initConnection code id (Handshake.P2Event.ack :: rest)).remoteConnectionId
        = some id := by
  rw [Handshake.initConnection, if_neg h]
  exact ⟨rfl, rfl⟩

theorem handshake_ack_established_witness :
    (Handshake.initConnection 200 "abc"
        [Handshake.P2Event.ack, Handshake.P2Event.reqDone 500]).outcome
      = some Handshake.HsOutcome.established :=
  (handshake_ack_established 200 "abc" [Handshake.P2Event.reqDone 500] (by decide)).1

/-- Claim C2 is false on the code: starting from a freshly constructed
interface server, a successful load installs the binding and sets
`isRunning`; a subsequent reload of the now-malformed file keeps the
previously installed binding but sets `isRunning` to false, although the
claim says the flag stays true after any post-first-load failure. -/
theorem loadBindings_reload_failure_cex :
    ((Bindings.loadBindings (Bindings.FileState.wellFormed "b") 5
        { isLoading := false, fileTime := 0, bindings := none, isRunning := false }).1).isRunning
      = true
    ∧ ((Bindings.loadBindings Bindings.FileState.malformed 7
        (Bindings.loadBindings (Bindings.FileState.wellFormed "b") 5
          { isLoading := false, fileTime := 0, bindings := none,
            isRunning := false }).1).1).bindings = some "b"
    ∧ ((Bindings.loadBindings Bindings.FileState.malformed 7
        (Bindings.loadBindings (Bindings.FileState.wellFormed "b") 5
          { isLoading := false, fileTime := 0, bindings := none,
            isRunning := false }).1).1).isRunning = false := by
  decide

/-- Claim C2 (amended): whenever `loadBindings` fails -- the file is
missing or its content malformed -- the previously installed binding and
the recorded file time are unchanged and the call returns false; a missing
file also leaves `isRunning` unchanged, but malformed content sets
`isRunning` to false on every parse failure, not only on a failure of the
first-ever load. -/
theorem loadBindings_fail_soft_amended (file : Bindings.FileState) (mtime : Int)
    (st : Bindings.IfaceState)
    (h : file = Bindings.FileState.missing ∨ file = Bindings.FileState.malformed) :
    ((Bindings.loadBindings file mtime st).1).bindings = st.bindings
    ∧ ((Bindings.loadBindings file mtime st).1).fileTime = st.fileTime
    ∧ (Bindings.loadBindings file mtime st).2 = false
    ∧ (file = Bindings.FileState.malformed →
        ((Bindings.loadBindings file mtime st).1).isRunning = false)
    ∧ (file = Bindings.FileState.missing →
        ((Bindings.loadBindings file mtime st).1).isRunning = st.isRunning) := by
  rcases h with h | h <;> subst h <;> simp [Bindings.loadBindings]

theorem loadBindings_fail_soft_amended_witness :
    ((Bindings.loadBindings Bindings.FileState.malformed 9
        { isLoading := false, fileTime := 5, bindings := some "b",
          isRunning := true }).1).bindings = some "b"
    ∧ ((Bindings.loadBindings Bindings.FileState.malformed 9
        { isLoading := false, fileTime := 5, bindings := some "b",
          isRunning := true }).1).isRunning = false := by
  have h := loadBindings_fail_soft_amended Bindings.FileState.malformed 9
    { isLoading := false, fileTime := 5, bindings := some "b", isRunning := true }
    (Or.inr rfl)
  exact ⟨h.1, h.2.2.2.1 rfl⟩

theorem bindings_onChange_le_one (hf : Bool) (e : String) (m : Int)
    (f : Bindings.FileState) (st : Bindings.IfaceState) :
    (Bindings.onChange hf e m f st).2 ≤ 1 := by
  rw [Bindings.onChange]
  split
  · split
    · simp
    · split <;> simp
  · simp

/-- Claim C7: if a first change notification leaves the watcher state with
no load in progress, and a second notification observes a file modification
time equal to the time recorded at the last successful load, then the
second notification performs zero `loadBindings` calls and leaves the state
unchanged, so `loadBindings` runs at most once for the pair. -/
theorem watch_duplicate_mtime_no_reload (h₁ h₂ : Bool) (e₁ e₂ : String) (m₁ : Int)
    (f₁ f₂ : Bindings.FileState) (st₀ st₁ : Bindings.IfaceState) (n₁ : Nat)
    (hrun : Bindings.onChange h₁ e₁ m₁ f₁ st₀ = (st₁, n₁))
    (hnl : st₁.isLoading = false) :
    Bindings.onChange h₂ e₂ st₁.fileTime f₂ st₁ = (st₁, 0)
    ∧ n₁ + (Bindings.onChange h₂ e₂ st₁.fileTime f₂ st₁).2 ≤ 1 := by
  have hsecond : Bindings.onChange h₂ e₂ st₁.fileTime f₂ st₁ = (st₁, 0) := by
    rw [Bindings.onChange]
    split
    · rw [if_neg (by simp [hnl]), if_pos rfl]
    · rfl
  refine ⟨hsecond, ?_⟩
  have hle := bindings_onChange_le_one h₁ e₁ m₁ f₁ st₀
  rw [hrun] at hle
  rw [hsecond]
  omega

theorem watch_duplicate_mtime_no_reload_witness :
    Bindings.onChange true "change" 5 (Bindings.FileState.wellFormed "c")
        { isLoading := false, fileTime := 5, bindings := some "b", isRunning := true }
      = ({ isLoading := false, fileTime := 5, bindings := some "b", isRunning := true }, 0) := by
  have h := watch_duplicate_mtime_no_reload true true "change" "change" 5
    (Bindings.FileState.wellFormed "b") (Bindings.FileState.wellFormed "c")
    { isLoading := false, fileTime := 0, bindings := none, isRunning := false }
    { isLoading := false, fileTime := 5, bindings := some "b", isRunning := true }
    1 (by decide) (by decide)
  exact h.1

/-- Claim C8 is false on the code, at a reachable state: right after an
enabled REM init whose socket channel has connected but whose handshake has
not succeeded, `isConnected` evaluates to true while no peer-issued
connection id has been stored; moreover an interface bridge that does not
override the base getter (HttpInterfaceServer) reports
`isConnected = isRunning`, so for that bridge isConnected is implied by
isRunning alone. -/
theorem rem_isConnected_cex :
    Rem.isConnected (Rem.remAfterInitSockets true) = some true
    ∧ (Rem.remAfterInitSockets true).remoteConnectionId = none
    ∧ Bindings.ifaceIsConnected
        { isLoading := false, fileTime := 0, bindings := none, isRunning := true } = true := by
  decide

/-- Claim C8 (amended): `REMInterfaceServer.isConnected` reflects only the
socket channel -- it is true exactly when the socket client exists with its
connected flag set -- and is unaffected by the stored handshake connection
id and by `isRunning` (when no socket client exists the getter throws,
because its guard compares the client against the string 'undefined');
bridges that do not override the base getter (the HTTP and Influx interface
servers) inherit `isConnected = isRunning`. -/
theorem rem_isConnected_amended :
    (∀ (st : Rem.REMState) (b : Bool),
        Rem.isConnected { st with isRunning := b } = Rem.isConnected st)
    ∧ (∀ (st : Rem.REMState) (cid : Option String),
        Rem.isConnected { st with remoteConnectionId := cid } = Rem.isConnected st)
    ∧ (∀ st : Rem.REMState,
        Rem.isConnected st = some true ↔
          ∃ c : Rem.SockClient, st.sockClient = some c ∧ c.connected = true)
    ∧ (∀ st : Bindings.IfaceState, Bindings.ifaceIsConnected st = st.isRunning) := by
  refine ⟨fun st b => rfl, fun st cid => rfl, fun st => ?_, fun st => rfl⟩
  cases hsc : st.sockClient with
  | none => simp [Rem.isConnected, hsc]
  | some c => simp [Rem.isConnected, hsc]

/-- Claim C1 is false on the code for server entries: `WebServer.init`
constructs and appends a handle for a recognised server key even when the
entry is disabled -- here a disabled http entry yields one registered
handle (its init stores the uuid and leaves it not running). -/
theorem init_disabled_appends_handle_cex :
    (Registry.initServers
        { httpsOk := true, ssdpStarted := true, bindingsOk := fun _ => true,
          remSockOk := fun _ => true }
        (fun _ => "gen")
        [("http", { enabled := false, uuid := some "u" })]).2.2
      = [{ name := "http", type := "http", uuid := some "u", isRunning := false }] := by
  decide

/-- Claim C1 (amended): a disabled interface entry passed to
`WebServer.initInterfaces` creates no handle, and its only side effect is
the one-time assignment and persistence of a uuid when the entry lacks one;
a disabled server entry passed to `WebServer.init`, however, is constructed
and appended to the registry anyway -- with the same uuid-only config side
effect -- and its init leaves the handle not running. -/
theorem init_disabled_side_effects_amended :
    (∀ (env : Registry.Env) (g s : String) (c : Registry.IntConfig),
        c.enabled = false →
        (Registry.initInterfaceEntry env g s c).2.2 = []
        ∧ (Registry.initInterfaceEntry env g s c).1 = { c with uuid := some (c.uuid.getD g) }
        ∧ (Registry.initInterfaceEntry env g s c).2.1
            = (if c.uuid = none then [{ key := "web.interfaces." ++ s, uuid := g }] else []))
    ∧ (∀ (env : Registry.Env) (g s : String) (c : Registry.SrvConfig) (k : Registry.SrvKind),
        c.enabled = false → Registry.srvKindOf s = some k →
        (Registry.initServerEntry env g s c).2.2
            = [{ name := s, type := s, uuid := some (c.uuid.getD g), isRunning := false }]
        ∧ (Registry.initServerEntry env g s c).1 = { c with uuid := some (c.uuid.getD g) }
        ∧ (Registry.initServerEntry env g s c).2.1
            = (if c.uuid = none then [{ key := "web.servers." ++ s, uuid := g }] else [])) := by
  constructor
  · intro env g s c hen
    obtain ⟨nm, ty, en, fn, cu⟩ := c
    have hen' : en = false := hen
    subst hen'
    cases cu with
    | none => simp [Registry.initInterfaceEntry, Registry.ensureIntUuid]
    | some u => simp [Registry.initInterfaceEntry, Registry.ensureIntUuid]
  · intro env g s c k hen hk
    obtain ⟨en, cu⟩ := c
    have hen' : en = false := hen
    subst hen'
    cases cu with
    | none =>
      simp [Registry.initServerEntry, Registry.ensureSrvUuid, Registry.srvInit, hk]
    | some u =>
      simp [Registry.initServerEntry, Registry.ensureSrvUuid, Registry.srvInit, hk]

theorem init_disabled_side_effects_amended_witness :
    (Registry.initInterfaceEntry
        { httpsOk := true, ssdpStarted := true, bindingsOk := fun _ => true,
          remSockOk := fun _ => true } "g" "vera"
        { name := "vera", type := some "http", enabled := false,
          fileName := some "vera.json", uuid := none }).2.2 = []
    ∧ (Registry.initServerEntry
        { httpsOk := true, ssdpStarted := true, bindingsOk := fun _ => true,
          remSockOk := fun _ => true } "g" "http"
        { enabled := false, uuid := some "u" }).2.2
      = [{ name := "http", type := "http", uuid := some "u", isRunning := false }] := by
  have h1 := init_disabled_side_effects_amended.1
    { httpsOk := true, ssdpStarted := true, bindingsOk := fun _ => true,
      remSockOk := fun _ => true } "g" "vera"
    { name := "vera", type := some "http", enabled := false,
      fileName := some "vera.json", uuid := none } rfl
  have h2 := init_disabled_side_effects_amended.2
    { httpsOk := true, ssdpStarted := true, bindingsOk := fun _ => true,
      remSockOk := fun _ => true } "g" "http"
    { enabled := false, uuid := some "u" } Registry.SrvKind.http rfl (by decide)
  exact ⟨h1.1, h2.1⟩

/-- Claim C9: a uuid already present on a config entry is never regenerated
or replaced -- the assignment of Server.ts lines 60-63 / 93-96 fires only
when the uuid is absent, it is idempotent across repeated init calls with
arbitrary fresh generator values, and every handle (re-)initialised from
such an entry stores exactly the originally assigned uuid. -/
theorem uuid_immutable :
    (∀ (g : String) (c : Registry.SrvConfig) (u : String), c.uuid = some u →
        Registry.ensureSrvUuid g c = (c, false))
    ∧ (∀ (g : String) (c : Registry.IntConfig) (u : String), c.uuid = some u →
        Registry.ensureIntUuid g c = (c, false))
    ∧ (∀ (g g' : String) (c : Registry.SrvConfig),
        Registry.ensureSrvUuid g' (Registry.ensureSrvUuid g c).1
          = ((Registry.ensureSrvUuid g c).1, false))
    ∧ (∀ (g g' : String) (c : Registry.IntConfig),
        Registry.ensureIntUuid g' (Registry.ensureIntUuid g c).1
          = ((Registry.ensureIntUuid g c).1, false))
    ∧ (∀ (env : Registry.Env) (g s : String) (c : Registry.SrvConfig) (u : String),
        c.uuid = some u →
        ∀ h ∈ (Registry.initServerEntry env g s c).2.2, h.uuid = some u)
    ∧ (∀ (env : Registry.Env) (g s : String) (c : Registry.IntConfig) (u : String),
        c.uuid = some u →
        (Registry.initInterfaceEntry env g s c).1.uuid = some u
        ∧ ∀ h ∈ (Registry.initInterfaceEntry env g s c).2.2, h.uuid = some u) := by
  refine ⟨?_, ?_, ?_, ?_, ?_, ?_⟩
  · intro g c u hcu
    simp [Registry.ensureSrvUuid, hcu]
  · intro g c u hcu
    simp [Registry.ensureIntUuid, hcu]
  · intro g g' c
    cases hcu : c.uuid <;> simp [Registry.ensureSrvUuid, hcu]
  · intro g g' c
    cases hcu : c.uuid <;> simp [Registry.ensureIntUuid, hcu]
  · intro env g s c u hcu h hh
    have he : Registry.ensureSrvUuid g c = (c, false) := by
      simp [Registry.ensureSrvUuid, hcu]
    simp only [Registry.initServerEntry, he] at hh
    cases hks : Registry.srvKindOf s with
    | none => rw [hks] at hh; simp at hh
    | some k =>
      rw [hks] at hh
      simp at hh
      subst hh
      simp [Registry.srvInit, hcu]
  · intro env g s c u hcu
    have he : Registry.ensureIntUuid g c = (c, false) := by
      simp [Registry.ensureIntUuid, hcu]
    constructor
    · simp only [Registry.initInterfaceEntry, he]
      split
      · exact hcu
      · split
        · exact hcu
        · split
          · exact hcu
          · exact hcu
    · intro h hh
      simp only [Registry.initInterfaceEntry, he] at hh
      split at hh
      · simp at hh
      · split at hh
        · simp at hh
          subst hh
          simp [Registry.mkBindingHandle, hcu]
        · split at hh
          · simp at hh
            subst hh
            simp [Registry.mkRemHandle, hcu]
          · simp at hh

theorem uuid_immutable_witness :
    Registry.ensureSrvUuid "fresh" { enabled := true, uuid := some "u" }
      = ({ enabled := true, uuid := some "u" }, false)
    ∧ (Registry.initInterfaceEntry
        { httpsOk := true, ssdpStarted := true, bindingsOk := fun _ => true,
          remSockOk := fun _ => true } "fresh2" "vera"
        { name := "vera", type := some "http", enabled := true,
          fileName := some "vera.json", uuid := some "u" }).1.uuid = some "u" := by
  have h1 := uuid_immutable.1 "fresh" { enabled := true, uuid := some "u" } "u" rfl
  have h6 := uuid_immutable.2.2.2.2.2
    { httpsOk := true, ssdpStarted := true, bindingsOk := fun _ => true,
      remSockOk := fun _ => true } "fresh2" "vera"
    { name := "vera", type := some "http", enabled := true,
      fileName := some "vera.json", uuid := some "u" } "u" rfl
  exact ⟨h1, h6.1⟩

theorem mdns_answer_fold_no_match (q : Mdns.MQuery) (st : List Mdns.MQuery × List Mdns.MAnswer)
    (ans : List Mdns.MAnswer) (h : ∀ x ∈ ans, x.name ≠ q.name) :
    ans.foldl (Mdns.answerStep q) st = st := by
  induction ans generalizing st with
  | nil => rfl
  | cons a t ih =>
    have ha : a.name ≠ q.name := h a (List.mem_cons_self a t)
    rw [List.foldl_cons]
    rw [show Mdns.answerStep q st a = st from by simp [Mdns.answerStep, ha]]
    exact ih st (fun x hx => h x (List.mem_cons_of_mem a hx))

theorem mdns_query_fold_no_match (answers : List Mdns.MAnswer) (qs : List Mdns.MQuery)
    (st : List Mdns.MQuery × List Mdns.MAnswer)
    (h : ∀ q ∈ qs, ∀ x ∈ answers, x.name ≠ q.name) :
    qs.foldl (Mdns.queryStep answers) st = st := by
  induction qs generalizing st with
  | nil => rfl
  | cons q t ih =>
    rw [List.foldl_cons]
    rw [show Mdns.queryStep answers st q = st from
      mdns_answer_fold_no_match q st answers (h q (List.mem_cons_self q t))]
    exact ih st (fun q' hq' => h q' (List.mem_cons_of_mem q hq'))

theorem mdns_queryStep_single (q : Mdns.MQuery) (as₁ as₂ : List Mdns.MAnswer)
    (a : Mdns.MAnswer) (cur : List Mdns.MQuery) (emits : List Mdns.MAnswer)
    (ha : a.name = q.name) (h₁ : ∀ x ∈ as₁, x.name ≠ q.name)
    (h₂ : ∀ x ∈ as₂, x.name ≠ q.name) :
    Mdns.queryStep (as₁ ++ a :: as₂) (cur, emits) q
      = (cur.filter (fun v => v.name != q.name), emits ++ [a]) := by
  rw [Mdns.queryStep, List.foldl_append]
  rw [show List.foldl (Mdns.answerStep q) (cur, emits) as₁ = (cur, emits) from
    mdns_answer_fold_no_match q (cur, emits) as₁ h₁]
  rw [List.foldl_cons]
  rw [show Mdns.answerStep q (cur, emits) a
        = (cur.filter (fun v => v.name != q.name), emits ++ [a]) from by
      simp [Mdns.answerStep, ha]]
  exact mdns_answer_fold_no_match q _ as₂ h₂

/-- Claim C3: if an inbound response packet carries exactly one answer
matching exactly one pending query (every other pending query matches no
answer of the packet, and no other answer matches the query), the response
handler emits exactly one local mdnsResponse notification -- the matched
answer -- and the pending set shrinks by exactly one element: the matched
query is removed and all others are retained in order.  A packet in which
no answer matches any pending query leaves the pending set unchanged and
emits nothing. -/
theorem mdns_pending_set_shrinks :
    (∀ (qs₁ qs₂ : List Mdns.MQuery) (q : Mdns.MQuery) (as₁ as₂ : List Mdns.MAnswer)
        (a : Mdns.MAnswer),
        a.name = q.name →
        (∀ q' ∈ qs₁ ++ qs₂, ∀ x ∈ as₁ ++ a :: as₂, x.name ≠ q'.name) →
        (∀ x ∈ as₁ ++ as₂, x.name ≠ q.name) →
        Mdns.onResponse (qs₁ ++ q :: qs₂) (as₁ ++ a :: as₂) = (qs₁ ++ qs₂, [a])
        ∧ ((Mdns.onResponse (qs₁ ++ q :: qs₂) (as₁ ++ a :: as₂)).1).length + 1
            = (qs₁ ++ q :: qs₂).length)
    ∧ (∀ (queries : List Mdns.MQuery) (answers : List Mdns.MAnswer),
        (∀ q' ∈ queries, ∀ x ∈ answers, x.name ≠ q'.name) →
        Mdns.onResponse queries answers = (queries, [])) := by
  constructor
  · intro qs₁ qs₂ q as₁ as₂ a ha hq hother
    have h₁ : ∀ x ∈ as₁, x.name ≠ q.name :=
      fun x hx => hother x (List.mem_append_left _ hx)
    have h₂ : ∀ x ∈ as₂, x.name ≠ q.name :=
      fun x hx => hother x (List.mem_append_right _ hx)
    have hq₁ : ∀ q' ∈ qs₁, ∀ x ∈ as₁ ++ a :: as₂, x.name ≠ q'.name :=
      fun q' hq' => hq q' (List.mem_append_left _ hq')
    have hq₂ : ∀ q' ∈ qs₂, ∀ x ∈ as₁ ++ a :: as₂, x.name ≠ q'.name :=
      fun q' hq' => hq q' (List.mem_append_right _ hq')
    have hfq : ∀ q' ∈ qs₁ ++ qs₂, (q'.name != q.name) = true := by
      intro q' hq'
      have hne : a.name ≠ q'.name :=
        hq q' hq' a (List.mem_append_right _ (List.mem_cons_self a as₂))
      rw [ha] at hne
      simpa [bne_iff_ne] using Ne.symm hne
    have hfilter : (qs₁ ++ q :: qs₂).filter (fun v => v.name != q.name) = qs₁ ++ qs₂ := by
      rw [List.filter_append]
      rw [List.filter_eq_self.mpr (fun x hx => hfq x (List.mem_append_left _ hx))]
      rw [show (q :: qs₂).filter (fun v => v.name != q.name)
            = qs₂.filter (fun v => v.name != q.name) from by simp]
      rw [List.filter_eq_self.mpr (fun x hx => hfq x (List.mem_append_right _ hx))]
    have hmain : Mdns.onResponse (qs₁ ++ q :: qs₂) (as₁ ++ a :: as₂) = (qs₁ ++ qs₂, [a]) := by
      rw [Mdns.onResponse, List.foldl_append]
      rw [mdns_query_fold_no_match _ qs₁ _ hq₁]
      rw [List.foldl_cons]
      rw [show Mdns.queryStep (as₁ ++ a :: as₂) ((qs₁ ++ q :: qs₂, []) :
              List Mdns.MQuery × List Mdns.MAnswer) q
            = ((qs₁ ++ q :: qs₂).filter (fun v => v.name != q.name), [a]) from by
        simpa using mdns_queryStep_single q as₁ as₂ a (qs₁ ++ q :: qs₂) [] ha h₁ h₂]
      rw [mdns_query_fold_no_match _ qs₂ _ hq₂, hfilter]
    refine ⟨hmain, ?_⟩
    rw [hmain]
    simp [List.length_append]
    omega
  · intro queries answers h
    rw [Mdns.onResponse]
    exact mdns_query_fold_no_match answers queries (queries, []) h

theorem mdns_pending_set_shrinks_witness :
    Mdns.onResponse
        [{ name := "_test._tcp.local", qtype := "A" }, { name := "other.local", qtype := "A" }]
        [{ name := "_test._tcp.local", payload := "10.0.0.5" }]
      = ([{ name := "other.local", qtype := "A" }],
         [{ name := "_test._tcp.local", payload := "10.0.0.5" }]) := by
  have h := (mdns_pending_set_shrinks.1 []
    [{ name := "other.local", qtype := "A" }]
    { name := "_test._tcp.local", qtype := "A" } [] []
    { name := "_test._tcp.local", payload := "10.0.0.5" }
    rfl (by decide) (by decide)).1
  simpa using h
